import Mathlib

/-!
Verification of the huey color-theme compiler sources.

The Rust sources are embedded shallowly: `f32` arithmetic is modelled by exact
rational arithmetic (`ℚ`), `u8` by `Fin 256`, fallible functions by `Except`.
Every definition mirrors the corresponding item in `src/color.rs`,
`src/format.rs`, `src/highlight.rs` or `src/error.rs`.
-/

deriving instance DecidableEq for Except

namespace Huey

/-! ### Error types (src/error.rs) -/

inductive HslColorError where
  | hue (found : ℚ)
  | saturation (found : ℚ)
  | lightness (found : ℚ)
  deriving DecidableEq, Repr

inductive RgbColorError where
  | format (found : String)
  | mix (found : ℚ)
  deriving DecidableEq, Repr

inductive ThemeError where
  | invalidBackground (background : String)
  | missingValue
  | invalidColor (color : String)
  | missingColor (color : String)
  | missingHue (hue : String)
  | missingHueSection (hue : String)
  | invalidHighlight (highlight : String)
  | unknownStyleOption (opt : String)
  deriving DecidableEq, Repr

/-! ### Numeric casts

Rust `f32::round` rounds half away from zero; `expr as u8` on a float
saturates to the target range after truncating toward zero, while on an
integer it wraps modulo 256. -/

/-- `u8` -/
abbrev U8 := Fin 256

/-- `f32::round`: round half away from zero (exact model). -/
def ratRound (x : ℚ) : ℤ := if x < 0 then -⌊-x + 1/2⌋ else ⌊x + 1/2⌋

/-- Truncation toward zero, as performed by Rust float-to-int `as` casts. -/
def ratTrunc (x : ℚ) : ℤ := if x < 0 then ⌈x⌉ else ⌊x⌋

/-- Saturation of an integer into `u8` range, as Rust float-to-int `as` casts do. -/
def intToU8sat (n : ℤ) : U8 :=
  ⟨(min (max n 0) 255).toNat, by
    have h : min (max n 0) 255 ≤ 255 := min_le_right _ _
    have h0 : (0 : ℤ) ≤ min (max n 0) 255 := le_min (le_max_right _ _) (by norm_num)
    omega⟩

/-- `(x).round() as u8` on an `f32` value. -/
def roundToU8 (x : ℚ) : U8 := intToU8sat (ratRound x)

/-- `x as u8` on an `f32` value. -/
def truncToU8 (x : ℚ) : U8 := intToU8sat (ratTrunc x)

/-! ### IEEE binary32 rounding

`mix` adds two rounded products whose exact sum can fall just below an
integer, so for it the `f32` rounding of each arithmetic operation is
modelled exactly: every operation rounds its exact rational result to the
nearest binary32 value (ties to even). -/

/-- Fuel-driven binary logarithm: `natLog2F n n` is `⌊log₂ n⌋` for `n > 0`. -/
def natLog2F : ℕ → ℕ → ℕ
  | 0, _ => 0
  | f+1, n => if 2 ≤ n then natLog2F f (n / 2) + 1 else 0

/-- `⌊log₂ x⌋` for a positive rational: the unique `e` with `2^e ≤ x < 2^(e+1)`,
obtained from the bit lengths of numerator and denominator (an estimate
accurate to within one) followed by a correction step. -/
def ratLog2 (x : ℚ) : ℤ :=
  let p := x.num.toNat
  let q := x.den
  let e : ℤ := (natLog2F p p : ℤ) - (natLog2F q q : ℤ)
  if x < (2:ℚ) ^ e then e - 1
  else if (2:ℚ) ^ (e + 1) ≤ x then e + 1
  else e

/-- Rounding a positive rational to the nearest IEEE binary32 value, ties to
even: 24 significant bits for normal values, fixed scale `2^(-149)` below the
normal range `[2^(-126), 2^128)`. Overflow to infinity at `2^128` is not
modelled; no value arising in this program comes near it. -/
def roundF32pos (x : ℚ) : ℚ :=
  let e := max (ratLog2 x) (-126)
  let scale : ℚ := (2:ℚ) ^ (e - 23)
  let m := x / scale
  let lo := ⌊m⌋
  let frac := m - (lo : ℚ)
  let n : ℤ := if frac < 1/2 then lo
               else if 1/2 < frac then lo + 1
               else if lo % 2 = 0 then lo else lo + 1
  (n : ℚ) * scale

/-- The binary32 value nearest a rational: the result of an `f32` arithmetic
operation whose exact value is `x`. -/
def roundF32 (x : ℚ) : ℚ :=
  if x < 0 then -roundF32pos (-x) else if x = 0 then 0 else roundF32pos x

/-! ### Color types (src/color.rs) -/

structure RgbColor where
  r : U8
  g : U8
  b : U8
  deriving DecidableEq, Repr

structure HslColor where
  hue : ℚ
  saturation : ℚ
  lightness : ℚ
  deriving DecidableEq, Repr

/-- Rust `v.clamp(0.0, 1.0)`. -/
def clamp01 (x : ℚ) : ℚ := min (max x 0) 1

/-- `HslColor::new`: validates `hue ∈ [0,360]`, `saturation, lightness ∈ [0,1]`,
then stores the hue as a fraction of a full turn. -/
def HslColor.new (hue saturation lightness : ℚ) : Except HslColorError HslColor :=
  if ¬ (0 ≤ hue ∧ hue ≤ 360) then .error (.hue hue)
  else if ¬ (0 ≤ saturation ∧ saturation ≤ 1) then .error (.saturation saturation)
  else if ¬ (0 ≤ lightness ∧ lightness ≤ 1) then .error (.lightness lightness)
  else .ok ⟨hue / 360, saturation, lightness⟩

/-- `HslColor::adjust`. -/
def HslColor.adjust (c : HslColor) (saturation lightness : ℚ) : HslColor :=
  ⟨c.hue, clamp01 (c.saturation + saturation), clamp01 (c.lightness + lightness)⟩

/-- `HslColor::lighten`. -/
def HslColor.lighten (c : HslColor) (amount : ℚ) : HslColor :=
  ⟨c.hue, c.saturation, clamp01 (c.lightness + amount)⟩

/-- `HslColor::darken`. -/
def HslColor.darken (c : HslColor) (amount : ℚ) : HslColor :=
  ⟨c.hue, c.saturation, clamp01 (c.lightness - amount)⟩

/-- The inner `hue_to_rgb` helper of `HslColor::to_rgb_color`. -/
def hueToRgb (p q t : ℚ) : ℚ :=
  let t1 := if t < 0 then t + 1 else t
  let t2 := if t1 > 1 then t1 - 1 else t1
  if t2 < 1/6 then p + (q - p) * 6 * t2
  else if t2 < 1/2 then q
  else if t2 < 2/3 then p + (q - p) * (2/3 - t2) * 6
  else p

/-- `HslColor::to_rgb_color`. -/
def HslColor.toRgbColor (c : HslColor) : RgbColor :=
  if c.saturation = 0 then
    ⟨roundToU8 (c.lightness * 255), roundToU8 (c.lightness * 255),
     roundToU8 (c.lightness * 255)⟩
  else
    let q := if c.lightness < 1/2 then c.lightness * (1 + c.saturation)
             else c.lightness + c.saturation - c.lightness * c.saturation
    let p := 2 * c.lightness - q
    ⟨roundToU8 (hueToRgb p q (c.hue + 1/3) * 255),
     roundToU8 (hueToRgb p q c.hue * 255),
     roundToU8 (hueToRgb p q (c.hue - 1/3) * 255)⟩

/-- `RgbColor::to_hsl_color`. -/
def RgbColor.toHslColor (c : RgbColor) : HslColor :=
  let r : ℚ := (c.r.val : ℚ) / 255
  let g : ℚ := (c.g.val : ℚ) / 255
  let b : ℚ := (c.b.val : ℚ) / 255
  let mx := max (max r g) b
  let mn := min (min r g) b
  let l := (mx + mn) / 2
  if mx = mn then ⟨0, 0, l⟩
  else
    let d := mx - mn
    let s := if l > 1/2 then d / (2 - mx - mn) else d / (mx + mn)
    let h := if r = mx then (g - b) / d + (if g < b then 6 else 0)
             else if g = mx then (b - r) / d + 2
             else if b = mx then (r - g) / d + 4
             else (mx + mn) / 2
    ⟨h / 6, s, l⟩

/-- The closed tagged union over the two `Color` trait implementors. -/
inductive ColorV where
  | rgb (c : RgbColor)
  | hsl (c : HslColor)
  deriving DecidableEq, Repr

/-- The `Color::to_rgb` trait method. -/
def ColorV.toRgb : ColorV → RgbColor
  | .rgb c => c
  | .hsl c => c.toRgbColor

/-- `mix` (src/color.rs): weighted channel average in `f32` arithmetic,
truncated to `u8`. `weight` stands for the exact value of the `f32` argument;
the channel values (integers up to 255) are exact in `f32`, so the operations
that round are `1.0 - weight`, the two products, and the sum. -/
def mix (color1 color2 : ColorV) (weight : ℚ) : Except RgbColorError RgbColor :=
  if ¬ (0 ≤ weight ∧ weight ≤ 1) then .error (.mix weight)
  else
    let c1 := color1.toRgb
    let c2 := color2.toRgb
    let w1 := weight
    let w2 := roundF32 (1 - weight)
    .ok ⟨truncToU8 (roundF32 (roundF32 ((c1.r.val : ℚ) * w1) + roundF32 ((c2.r.val : ℚ) * w2))),
         truncToU8 (roundF32 (roundF32 ((c1.g.val : ℚ) * w1) + roundF32 ((c2.g.val : ℚ) * w2))),
         truncToU8 (roundF32 (roundF32 ((c1.b.val : ℚ) * w1) + roundF32 ((c2.b.val : ℚ) * w2)))⟩

/-! ### Hexadecimal rendering and parsing (src/color.rs) -/

/-- One lowercase hexadecimal digit, as produced by the `{:02x}` format. -/
def hexDigitChar (n : ℕ) : Char := if n < 10 then Char.ofNat (48 + n) else Char.ofNat (87 + n)

/-- Two-digit lowercase rendering of a byte (`{:02x}`). -/
def byteToHex (n : U8) : List Char := [hexDigitChar (n.val / 16), hexDigitChar (n.val % 16)]

/-- The `Display` implementation for `RgbColor`: `#rrggbb`. -/
def RgbColor.hex (c : RgbColor) : String :=
  ⟨'#' :: (byteToHex c.r ++ byteToHex c.g ++ byteToHex c.b)⟩

/-- The `Color::hex` trait method on `HslColor`. -/
def HslColor.hex (c : HslColor) : String := c.toRgbColor.hex

/-- `\d` in the regex crate defaults to the full Unicode class `\p{Nd}`, not
just ASCII `0-9`. The class is modelled by the ASCII digits together with two
representative non-ASCII `\p{Nd}` blocks (Arabic-Indic `U+0660-0669` and
Devanagari `U+0966-096F`); every other `\p{Nd}` character behaves like these. -/
def isRegexNd (c : Char) : Bool :=
  ('0' ≤ c && c ≤ '9') || (0x660 ≤ c.toNat && c.toNat ≤ 0x669) ||
    (0x966 ≤ c.toNat && c.toNat ≤ 0x96F)

/-- The character class `[a-fA-F\d]` of the hex-format regex. -/
def isHexClassChar (c : Char) : Bool :=
  ('a' ≤ c && c ≤ 'f') || ('A' ≤ c && c ≤ 'F') || isRegexNd c

/-- The digits accepted by `i64::from_str_radix(_, 16)` (ASCII only). -/
def isAsciiHexDigit (c : Char) : Bool :=
  ('0' ≤ c && c ≤ '9') || ('a' ≤ c && c ≤ 'f') || ('A' ≤ c && c ≤ 'F')

/-- Value of one ASCII hexadecimal digit character. -/
def hexCharVal (c : Char) : ℕ :=
  if '0' ≤ c ∧ c ≤ '9' then c.toNat - 48
  else if 'a' ≤ c ∧ c ≤ 'f' then c.toNat - 87
  else c.toNat - 55

/-! ### Combined error type

`parse_from_hex` and the palette resolver return `anyhow::Error`; the dynamic
error value is one of the typed errors below or a numeric-parse error. -/

inductive Err where
  | theme (e : ThemeError)
  | rgb (e : RgbColorError)
  | hsl (e : HslColorError)
  | parseFloat (s : String)
  | parseInt (s : String)
  deriving DecidableEq, Repr

/-- The inner `extract` of `parse_from_hex`: `i64::from_str_radix(slice, 16)? as u8`.
`from_str_radix` accepts only ASCII hexadecimal digits and fails otherwise with an
integer-parse error propagated through `anyhow`; the wrapping `as u8` cast reduces
modulo 256. The source slices the capture by bytes; slices are modelled as
character pairs, which agrees with the source on ASCII captures. -/
def extract (slice : List Char) : Except Err U8 :=
  if slice.all isAsciiHexDigit then
    .ok ⟨(slice.foldl (fun acc c => acc * 16 + hexCharVal c) 0) % 256,
         Nat.mod_lt _ (by norm_num)⟩
  else .error (.parseInt (String.mk slice))

/-- `RgbColor::parse_from_hex`: the anchored regex `^#([a-fA-F\d]{6})$` must
match, then each channel is extracted from a two-digit slice of the capture. -/
def RgbColor.parse_from_hex (hex : String) : Except Err RgbColor :=
  match hex.data with
  | ['#', c1, c2, c3, c4, c5, c6] =>
    if isHexClassChar c1 && isHexClassChar c2 && isHexClassChar c3 &&
       isHexClassChar c4 && isHexClassChar c5 && isHexClassChar c6 then do
      let r ← extract [c1, c2]
      let g ← extract [c3, c4]
      let b ← extract [c5, c6]
      pure ⟨r, g, b⟩
    else .error (.rgb (.format hex))
  | _ => .error (.rgb (.format hex))

/-! ### List-level models of the string operations used by the sources -/

/-- `str::split(c)`: split at every occurrence of `sep`, keeping empty pieces. -/
def splitOn (sep : Char) : List Char → List (List Char)
  | [] => [[]]
  | c :: rest =>
    match splitOn sep rest with
    | [] => [[]]
    | hd :: tl => if c = sep then [] :: hd :: tl else (c :: hd) :: tl

/-- `str::contains("link:")` (src/highlight.rs): substring search for `link:`. -/
def containsLink : List Char → Bool
  | 'l' :: 'i' :: 'n' :: 'k' :: ':' :: _ => true
  | _ :: rest => containsLink rest
  | [] => false

/-- `str::replace("link:", "")` (src/highlight.rs): removes every
non-overlapping occurrence of `link:`, scanning left to right. -/
def removeLink : List Char → List Char
  | 'l' :: 'i' :: 'n' :: 'k' :: ':' :: rest => removeLink rest
  | c :: rest => c :: removeLink rest
  | [] => []

/-! ### Highlight compiler (src/highlight.rs) -/

/-- Modelled from the spec: `lookup_rgb_color` is referenced from
src/highlight.rs but its definition is not under src/. Per the spec, a
color-position token is resolved via palette lookup and converted to RGB, and a
lookup failure surfaces the unknown-color-reference error. -/
def lookup_rgb_color (value : String) (palette : List (String × HslColor)) :
    Except ThemeError RgbColor :=
  match palette.lookup value with
  | some c => .ok c.toRgbColor
  | none => .error (.missingColor value)

/-- `lookup_highlight`: `-` means `NONE`, anything else is a palette lookup
rendered as hex. -/
def lookup_highlight (value : String) (palette : List (String × HslColor)) :
    Except ThemeError String :=
  match value with
  | "-" => .ok "NONE"
  | _ => (lookup_rgb_color value palette).map (fun c => c.hex)

/-- The style-flag loop of `parse_style_options`. -/
def parseStyleOpts : List Char → Except ThemeError (List String)
  | [] => .ok []
  | c :: rest =>
    if c = 'b' then (parseStyleOpts rest).map (fun l => "bold = true" :: l)
    else if c = 'i' then (parseStyleOpts rest).map (fun l => "italic = true" :: l)
    else if c = 'u' then (parseStyleOpts rest).map (fun l => "underline = true" :: l)
    else if c = 'c' then (parseStyleOpts rest).map (fun l => "undercurl = true" :: l)
    else if c = 'd' then (parseStyleOpts rest).map (fun l => "underdouble = true" :: l)
    else if c = 't' then (parseStyleOpts rest).map (fun l => "underdotted = true" :: l)
    else if c = 'h' then (parseStyleOpts rest).map (fun l => "underdashed = true" :: l)
    else if c = 'o' then (parseStyleOpts rest).map (fun l => "standout = true" :: l)
    else if c = 's' then (parseStyleOpts rest).map (fun l => "strikethrough = true" :: l)
    else if c = 'n' then (parseStyleOpts rest).map (fun l => "nocombine = true" :: l)
    else if c = 'r' then (parseStyleOpts rest).map (fun l => "reverse = true" :: l)
    else if c = '-' then parseStyleOpts rest
    else .error (.unknownStyleOption (String.mk [c]))

/-- `parse_style_options`: renders the collected flags joined by `, `. -/
def parse_style_options (style : String) : Except ThemeError String :=
  (parseStyleOpts style.data).map (fun opts => String.intercalate ", " opts)

/-- `parse_highlight`: splits the directive on spaces, discards empty tokens,
and renders one `hl(...)` line per the 1-4 token forms. -/
def parse_highlight (hl_group value : String) (palette : List (String × HslColor)) :
    Except ThemeError String :=
  let values := (splitOn ' ' value.data).filter (fun x => !x.isEmpty)
  match values with
  | [fg] =>
    if containsLink fg then
      .ok ("\n    hl(0, \"" ++ hl_group ++ "\", \x7b link = \"" ++
           String.mk (removeLink fg) ++ "\" \x7d)")
    else
      (lookup_highlight (String.mk fg) palette).map (fun fgs =>
        "\n    hl(0, \"" ++ hl_group ++ "\", \x7b fg = \"" ++ fgs ++
        "\", bg = \"NONE\" \x7d)")
  | [fg, bg] => do
    let fgs ← lookup_highlight (String.mk fg) palette
    let bgs ← lookup_highlight (String.mk bg) palette
    pure ("\n    hl(0, \"" ++ hl_group ++ "\", \x7b fg = \"" ++ fgs ++
          "\", bg = \"" ++ bgs ++ "\" \x7d)")
  | [fg, bg, style] => do
    let fgs ← lookup_highlight (String.mk fg) palette
    let bgs ← lookup_highlight (String.mk bg) palette
    let sty ← parse_style_options (String.mk style)
    pure ("\n    hl(0, \"" ++ hl_group ++ "\", \x7b fg = \"" ++ fgs ++
          "\", bg = \"" ++ bgs ++ "\", " ++ sty ++ " \x7d)")
  | [fg, bg, style, sp] => do
    let fgs ← lookup_highlight (String.mk fg) palette
    let bgs ← lookup_highlight (String.mk bg) palette
    let sps ← lookup_highlight (String.mk sp) palette
    let sty ← parse_style_options (String.mk style)
    pure ("\n    hl(0, \"" ++ hl_group ++ "\", \x7b fg = \"" ++ fgs ++
          "\", bg = \"" ++ bgs ++ "\", sp = \"" ++ sps ++ "\", " ++ sty ++ " \x7d)")
  | _ => .error (.invalidHighlight value)

/-! ### Palette resolver (src/format.rs) -/

/-- The trait-object palette of the resolver maps names to either variant. -/
def lookup_color (key : String) (palette : List (String × ColorV)) :
    Except ThemeError ColorV :=
  match palette.lookup key with
  | some c => .ok c
  | none => .error (.missingColor key)

/-- `Color::adjust` on a trait object: the RGB variant converts to HSL first. -/
def ColorV.adjust : ColorV → ℚ → ℚ → ColorV
  | .hsl c, s, l => .hsl (c.adjust s l)
  | .rgb c, s, l => .hsl (c.toHslColor.adjust s l)

/-- `Color::lighten` on a trait object. -/
def ColorV.lighten : ColorV → ℚ → ColorV
  | .hsl c, a => .hsl (c.lighten a)
  | .rgb c, a => .hsl (c.toHslColor.lighten a)

/-- `Color::darken` on a trait object. -/
def ColorV.darken : ColorV → ℚ → ColorV
  | .hsl c, a => .hsl (c.darken a)
  | .rgb c, a => .hsl (c.toHslColor.darken a)

/-- `Color::hex` on a trait object. -/
def ColorV.hex : ColorV → String
  | .rgb c => c.hex
  | .hsl c => c.hex

/-- Digit-sequence value, most significant first. -/
def decDigitsVal (l : List Char) : ℕ := l.foldl (fun acc c => acc * 10 + (c.toNat - 48)) 0

/-- Decimal core of `str::parse::<f32>`: integer part, optional `.` and
fractional part, at least one digit overall; the value is exact in `ℚ`. -/
def parseF32Core (l : List Char) : Option ℚ :=
  match l.span Char.isDigit with
  | (ip, []) => if ip.isEmpty then none else some (decDigitsVal ip)
  | (ip, '.' :: fp) =>
    if (!ip.isEmpty || !fp.isEmpty) && fp.all Char.isDigit then
      some ((decDigitsVal ip : ℚ) + (decDigitsVal fp : ℚ) / (10 : ℚ) ^ fp.length)
    else none
  | _ => none

/-- `str::parse::<f32>` on the plain decimal forms used by theme files
(optional sign, digits, optional fraction), modelled exactly; other shapes
give the float-parse error propagated through `anyhow`. -/
def parseF32 (s : String) : Except Err ℚ :=
  let val :=
    match s.data with
    | '+' :: rest => parseF32Core rest
    | '-' :: rest => (parseF32Core rest).map Neg.neg
    | l => parseF32Core l
  match val with
  | some v => .ok v
  | none => .error (.parseFloat s)

/-- The regex crate's `(?i)` matches by Unicode simple case folding, restricted
here to the characters that fold onto a letter of the five function names: the
ASCII letters, plus `U+017F` (`ſ` folds to `s`) and `U+212A` (Kelvin sign folds
to `k`). -/
def regexCaseFold (c : Char) : Char :=
  if c = 'ſ' then 's' else if c = Char.ofNat 0x212A then 'k' else c.toLower

/-- `char::to_lowercase`, restricted to the same characters; `ſ` is already
lowercase and maps to itself, while the Kelvin sign lowercases to `k`. -/
def rustToLowerChar (c : Char) : Char :=
  if c = Char.ofNat 0x212A then 'k' else c.toLower

/-- The `\((.*)\)$` tail of the color-expression regex: a literal `(`, then any
characters except newline, then a literal `)` at the end of the string. -/
def stripParens : List Char → Option (List Char)
  | '(' :: rest => if rest.getLast? = some ')' then some rest.dropLast else none
  | _ => none

/-- One alternative of `^(?i)(hsl|adjust|lighten|darken|mix)\((.*)\)$`: returns
the two captures (function name as written, argument text). -/
def tryMatchFunc (name : List Char) (l : List Char) : Option (List Char × List Char) :=
  let pre := l.take name.length
  if pre.map regexCaseFold = name then
    match stripParens (l.drop name.length) with
    | some mid => if mid.contains '\n' then none else some (pre, mid)
    | none => none
  else none

def colorFuncNames : List (List Char) :=
  ["hsl".data, "adjust".data, "lighten".data, "darken".data, "mix".data]

/-- The full color-expression regex; the five alternatives are prefix-free, so
trying them in order is deterministic. -/
def matchColorExpr (l : List Char) : Option (List Char × List Char) :=
  colorFuncNames.findSome? (fun name => tryMatchFunc name l)

/-- `split_input`: comma-split and trim the captured arguments; a count
mismatch reports `InvalidColor` carrying the captured argument text. -/
def split_input (capture : List Char) (expected_parts : ℕ) : Except Err (List String) :=
  let parts := (splitOn ',' capture).map (fun x => (String.mk x).trim)
  if parts.length ≠ expected_parts then .error (.theme (.invalidColor (String.mk capture)))
  else .ok parts

/-- `parse_hsl_color`: a `$name` first argument goes through the hue table,
otherwise all three arguments are parsed as numbers. -/
def parse_hsl_color (parts : List String) (hues : Option (List (String × ℚ))) :
    Except Err HslColor :=
  let p0 := parts.getD 0 ""
  if p0.data.head? = some '$' then
    let key : String := String.mk p0.data.tail
    match hues with
    | some hs =>
      match hs.lookup key with
      | some hv => do
        let s ← parseF32 (parts.getD 1 "")
        let l ← parseF32 (parts.getD 2 "")
        (HslColor.new hv s l).mapError Err.hsl
      | none => .error (.theme (.missingHue key))
    | none => .error (.theme (.missingHueSection key))
  else do
    let h ← parseF32 p0
    let s ← parseF32 (parts.getD 1 "")
    let l ← parseF32 (parts.getD 2 "")
    (HslColor.new h s l).mapError Err.hsl

/-- `adjust_color`. -/
def adjust_color (parts : List String) (palette : List (String × ColorV)) :
    Except Err ColorV := do
  let c ← (lookup_color (parts.getD 0 "") palette).mapError Err.theme
  let s ← parseF32 (parts.getD 1 "")
  let l ← parseF32 (parts.getD 2 "")
  pure (c.adjust s l)

/-- `lighten_color`. -/
def lighten_color (parts : List String) (palette : List (String × ColorV)) :
    Except Err ColorV := do
  let c ← (lookup_color (parts.getD 0 "") palette).mapError Err.theme
  let a ← parseF32 (parts.getD 1 "")
  pure (c.lighten a)

/-- `darken_color`. -/
def darken_color (parts : List String) (palette : List (String × ColorV)) :
    Except Err ColorV := do
  let c ← (lookup_color (parts.getD 0 "") palette).mapError Err.theme
  let a ← parseF32 (parts.getD 1 "")
  pure (c.darken a)

/-- `mix_colors`. -/
def mix_colors (parts : List String) (palette : List (String × ColorV)) :
    Except Err ColorV := do
  let c1 ← (lookup_color (parts.getD 0 "") palette).mapError Err.theme
  let c2 ← (lookup_color (parts.getD 1 "") palette).mapError Err.theme
  let w ← parseF32 (parts.getD 2 "")
  let m ← (mix c1 c2 w).mapError Err.rgb
  pure (ColorV.rgb m)

/-- `parse_palette_entry`. A `#`-prefixed value goes through `parse_from_hex`;
otherwise the expression regex dispatches on the lowercased function-name
capture. The result `none` models execution of the wildcard arm
`panic!("Unhandled color capture group option")`. -/
def parse_palette_entry (value : String) (palette : List (String × ColorV))
    (hues : Option (List (String × ℚ))) : Option (Except Err ColorV) :=
  if value.data.head? = some '#' then
    some ((RgbColor.parse_from_hex value).map ColorV.rgb)
  else
    match matchColorExpr value.data with
    | some (cap1, cap2) =>
      let lname := String.mk (cap1.map rustToLowerChar)
      if lname = "hsl" then
        some (do
          let parts ← split_input cap2 3
          let c ← parse_hsl_color parts hues
          pure (ColorV.hsl c))
      else if lname = "adjust" then
        some (do
          let parts ← split_input cap2 3
          adjust_color parts palette)
      else if lname = "lighten" then
        some (do
          let parts ← split_input cap2 2
          lighten_color parts palette)
      else if lname = "darken" then
        some (do
          let parts ← split_input cap2 2
          darken_color parts palette)
      else if lname = "mix" then
        some (do
          let parts ← split_input cap2 3
          mix_colors parts palette)
      else none
    | none => some (.error (.theme (.invalidColor value)))

/-! ### Basic facts about the numeric casts -/

lemma intToU8sat_natCast (n : ℕ) (h : n < 256) : intToU8sat (n : ℤ) = ⟨n, h⟩ := by
  apply Fin.ext
  show (min (max (n : ℤ) 0) 255).toNat = n
  omega

lemma truncToU8_natCast (v : ℕ) (h : v < 256) : truncToU8 (v : ℚ) = ⟨v, h⟩ := by
  unfold truncToU8 ratTrunc
  rw [if_neg (not_lt.mpr (by positivity)), Int.floor_natCast]
  exact intToU8sat_natCast v h

lemma roundToU8_natCast (v : ℕ) (h : v < 256) : roundToU8 (v : ℚ) = ⟨v, h⟩ := by
  unfold roundToU8 ratRound
  rw [if_neg (not_lt.mpr (by positivity))]
  have hfl : ⌊(v : ℚ) + 1/2⌋ = (v : ℤ) := by
    rw [show ((v : ℚ) = ((v : ℤ) : ℚ)) by push_cast; ring, Int.floor_int_add]
    norm_num
  rw [hfl]
  exact intToU8sat_natCast v h

lemma clamp01_nonneg (x : ℚ) : 0 ≤ clamp01 x := le_min (le_max_right x 0) zero_le_one

lemma clamp01_le_one (x : ℚ) : clamp01 x ≤ 1 := min_le_right _ _

/-! ### Claim theorems -/

set_option maxRecDepth 4000 in
/-- C2 (refuted: code bug): the claim says `mix(c, c, w) = c` for every
`w ∈ [0,1]`, but in the program's `f32` arithmetic mixing `#030303` with
itself at weight `0.1f32` — whose exact value is `13421773/2^27`, a binary32
value as the second conjunct records — yields `#020202`: each channel computes
`fl(fl(3·w) + fl(3·fl(1-w))) = 12582911/2^22 ≈ 2.9999998`, which the `as u8`
cast truncates to `2`, not `3`. The weight-`1.0` and weight-`0.0` identities
do hold in `f32` (exercised here on a concrete pair of colors). -/
theorem C2_mix_not_identity :
    (0 ≤ (13421773 / 134217728 : ℚ) ∧ (13421773 / 134217728 : ℚ) ≤ 1) ∧
    roundF32 (13421773 / 134217728) = 13421773 / 134217728 ∧
    mix (.rgb ⟨3, 3, 3⟩) (.rgb ⟨3, 3, 3⟩) (13421773 / 134217728) = .ok ⟨2, 2, 2⟩ ∧
    (RgbColor.mk 2 2 2 ≠ RgbColor.mk 3 3 3) ∧
    mix (.rgb ⟨10, 20, 30⟩) (.rgb ⟨40, 50, 60⟩) 1 = .ok ⟨10, 20, 30⟩ ∧
    mix (.rgb ⟨10, 20, 30⟩) (.rgb ⟨40, 50, 60⟩) 0 = .ok ⟨40, 50, 60⟩ := by
  refine ⟨⟨by norm_num, by norm_num⟩, ?_, ?_, by decide, ?_, ?_⟩ <;> with_unfolding_all rfl

/-- C3: `adjust`, `lighten` and `darken` always keep saturation and lightness
inside `[0,1]` by clamping (no error), never change the hue field, and
`lighten`/`darken` leave saturation unchanged. -/
theorem C3_adjust_clamps (c : HslColor) (ds dl a : ℚ)
    (hs0 : 0 ≤ c.saturation) (hs1 : c.saturation ≤ 1) :
    (0 ≤ (c.adjust ds dl).saturation ∧ (c.adjust ds dl).saturation ≤ 1 ∧
      0 ≤ (c.adjust ds dl).lightness ∧ (c.adjust ds dl).lightness ≤ 1 ∧
      (c.adjust ds dl).hue = c.hue) ∧
    (0 ≤ (c.lighten a).saturation ∧ (c.lighten a).saturation ≤ 1 ∧
      0 ≤ (c.lighten a).lightness ∧ (c.lighten a).lightness ≤ 1 ∧
      (c.lighten a).hue = c.hue ∧ (c.lighten a).saturation = c.saturation) ∧
    (0 ≤ (c.darken a).saturation ∧ (c.darken a).saturation ≤ 1 ∧
      0 ≤ (c.darken a).lightness ∧ (c.darken a).lightness ≤ 1 ∧
      (c.darken a).hue = c.hue ∧ (c.darken a).saturation = c.saturation) := by
  simp [HslColor.adjust, HslColor.lighten, HslColor.darken,
    clamp01_nonneg, clamp01_le_one, hs0, hs1]

/-- C3 witness at a concrete color and deltas that would overflow without clamping. -/
theorem C3_adjust_clamps_witness :
    (HslColor.adjust ⟨1/2, 1/2, 1/2⟩ 5 (-7)).saturation ≤ 1 :=
  (C3_adjust_clamps ⟨1/2, 1/2, 1/2⟩ 5 (-7) 9 (by norm_num) (by norm_num)).1.2.1

/-- C4: `HslColor::new(230, 0.2, 0.11)` succeeds and renders to `#161822`;
`HslColor::new(0, 1.0, 0.5)` and `HslColor::new(360, 1.0, 0.5)` both succeed
(360 is inside the accepted interval) and both render to `#ff0000`. -/
theorem C4_concrete_hsl :
    (HslColor.new 230 0.2 0.11).map (fun c => c.toRgbColor.hex) = .ok "#161822" ∧
    (HslColor.new 0 1.0 0.5).map (fun c => c.toRgbColor.hex) = .ok "#ff0000" ∧
    (HslColor.new 360 1.0 0.5).map (fun c => c.toRgbColor.hex) = .ok "#ff0000" :=
  ⟨by with_unfolding_all rfl, by with_unfolding_all rfl, by with_unfolding_all rfl⟩

/-! ### C10: style-flag handling -/

/-- Spec-side character set: the 11 recognized flag characters and `-`. -/
def recognizedStyleChars : List Char :=
  ['b', 'i', 'u', 'c', 'd', 't', 'h', 'o', 's', 'n', 'r', '-']

lemma exists_ok_map {ε α β : Type} (x : Except ε α) (f : α → β) :
    (∃ v, x.map f = .ok v) ↔ ∃ a, x = .ok a := by
  cases x <;> simp [Except.map]

lemma map_eq_error {ε α β : Type} (x : Except ε α) (f : α → β) (e : ε) :
    x.map f = .error e ↔ x = .error e := by
  cases x <;> simp [Except.map]

lemma parseStyleOpts_cons_flag (c : Char) (rest : List Char)
    (h : c ∈ recognizedStyleChars) (hd : c ≠ '-') :
    ∃ s, parseStyleOpts (c :: rest) = (parseStyleOpts rest).map (fun l => s :: l) := by
  simp only [recognizedStyleChars, List.mem_cons, List.not_mem_nil, or_false] at h
  rcases h with rfl | rfl | rfl | rfl | rfl | rfl | rfl | rfl | rfl | rfl | rfl | rfl
  · exact ⟨"bold = true", rfl⟩
  · exact ⟨"italic = true", rfl⟩
  · exact ⟨"underline = true", rfl⟩
  · exact ⟨"undercurl = true", rfl⟩
  · exact ⟨"underdouble = true", rfl⟩
  · exact ⟨"underdotted = true", rfl⟩
  · exact ⟨"underdashed = true", rfl⟩
  · exact ⟨"standout = true", rfl⟩
  · exact ⟨"strikethrough = true", rfl⟩
  · exact ⟨"nocombine = true", rfl⟩
  · exact ⟨"reverse = true", rfl⟩
  · exact absurd rfl hd

lemma parseStyleOpts_cons_dash (rest : List Char) :
    parseStyleOpts ('-' :: rest) = parseStyleOpts rest := rfl

lemma parseStyleOpts_cons_unknown (c : Char) (rest : List Char)
    (h : c ∉ recognizedStyleChars) :
    parseStyleOpts (c :: rest) = .error (.unknownStyleOption (String.mk [c])) := by
  have h1 : ¬ c = 'b' := fun hh => h (by rw [hh]; decide)
  have h2 : ¬ c = 'i' := fun hh => h (by rw [hh]; decide)
  have h3 : ¬ c = 'u' := fun hh => h (by rw [hh]; decide)
  have h4 : ¬ c = 'c' := fun hh => h (by rw [hh]; decide)
  have h5 : ¬ c = 'd' := fun hh => h (by rw [hh]; decide)
  have h6 : ¬ c = 't' := fun hh => h (by rw [hh]; decide)
  have h7 : ¬ c = 'h' := fun hh => h (by rw [hh]; decide)
  have h8 : ¬ c = 'o' := fun hh => h (by rw [hh]; decide)
  have h9 : ¬ c = 's' := fun hh => h (by rw [hh]; decide)
  have h10 : ¬ c = 'n' := fun hh => h (by rw [hh]; decide)
  have h11 : ¬ c = 'r' := fun hh => h (by rw [hh]; decide)
  have h12 : ¬ c = '-' := fun hh => h (by rw [hh]; decide)
  unfold parseStyleOpts
  rw [if_neg h1, if_neg h2, if_neg h3, if_neg h4, if_neg h5, if_neg h6, if_neg h7,
    if_neg h8, if_neg h9, if_neg h10, if_neg h11, if_neg h12]

lemma parseStyleOpts_ok_iff (l : List Char) :
    (∃ v, parseStyleOpts l = .ok v) ↔ ∀ c ∈ l, c ∈ recognizedStyleChars := by
  induction l with
  | nil => simp [parseStyleOpts]
  | cons c rest ih =>
    rw [List.forall_mem_cons]
    by_cases hmem : c ∈ recognizedStyleChars
    · by_cases hd : c = '-'
      · subst hd
        rw [parseStyleOpts_cons_dash, ih]
        exact (and_iff_right hmem).symm
      · obtain ⟨s, hs⟩ := parseStyleOpts_cons_flag c rest hmem hd
        rw [hs, exists_ok_map, ih]
        exact (and_iff_right hmem).symm
    · rw [parseStyleOpts_cons_unknown c rest hmem]
      constructor
      · rintro ⟨v, hv⟩
        exact absurd hv (by simp)
      · rintro ⟨hc, -⟩
        exact absurd hc hmem

lemma parseStyleOpts_error_mem (l : List Char) (e : ThemeError) :
    parseStyleOpts l = .error e →
    ∃ c, c ∈ l ∧ c ∉ recognizedStyleChars ∧ e = .unknownStyleOption (String.mk [c]) := by
  induction l with
  | nil => intro h; simp [parseStyleOpts] at h
  | cons c rest ih =>
    intro h
    by_cases hmem : c ∈ recognizedStyleChars
    · by_cases hd : c = '-'
      · subst hd
        rw [parseStyleOpts_cons_dash] at h
        obtain ⟨x, hx, hnx, hex⟩ := ih h
        exact ⟨x, List.mem_cons_of_mem _ hx, hnx, hex⟩
      · obtain ⟨s, hs⟩ := parseStyleOpts_cons_flag c rest hmem hd
        rw [hs, map_eq_error] at h
        obtain ⟨x, hx, hnx, hex⟩ := ih h
        exact ⟨x, List.mem_cons_of_mem _ hx, hnx, hex⟩
    · rw [parseStyleOpts_cons_unknown c rest hmem] at h
      exact ⟨c, List.mem_cons_self c rest, hmem, (Except.error.inj h).symm⟩

/-- C10: `parse_style_options` succeeds exactly when every character of the
style token is one of the 11 recognized flag characters or `-` (so `-` is
accepted anywhere, contributing nothing), and any failure is an
`UnknownStyleFlag` condition naming an offending character of the token. -/
theorem C10_style_flags (style : String) :
    ((∃ s, parse_style_options style = .ok s) ↔
      ∀ c ∈ style.data, c ∈ recognizedStyleChars) ∧
    (∀ e, parse_style_options style = .error e →
      ∃ c, c ∈ style.data ∧ c ∉ recognizedStyleChars ∧
        e = .unknownStyleOption (String.mk [c])) := by
  constructor
  · simp only [parse_style_options]
    rw [exists_ok_map]
    exact parseStyleOpts_ok_iff style.data
  · intro e h
    simp only [parse_style_options] at h
    rw [map_eq_error] at h
    exact parseStyleOpts_error_mem style.data e h

/-- C10 witness: `b-i`, with `-` interleaved between flags, is accepted. -/
theorem C10_style_flags_witness : ∃ s, parse_style_options "b-i" = .ok s :=
  (C10_style_flags "b-i").1.mpr (by decide)

/-! ### C7: link directives -/

lemma splitOn_not_mem (sep : Char) (l : List Char) (h : sep ∉ l) :
    splitOn sep l = [l] := by
  induction l with
  | nil => rfl
  | cons c rest ih =>
    have hc : ¬ c = sep := fun hh => h (hh ▸ List.mem_cons_self c rest)
    have hr : sep ∉ rest := fun hh => h (List.mem_cons_of_mem _ hh)
    unfold splitOn
    rw [ih hr]
    simp [hc]

lemma tokens_single (l : List Char) (hne : l ≠ []) (hsp : ' ' ∉ l) :
    (splitOn ' ' l).filter (fun x => !x.isEmpty) = [l] := by
  rw [splitOn_not_mem _ _ hsp]
  cases l with
  | nil => exact absurd rfl hne
  | cons c rest => rfl

/-- C7 amended: a single-token directive containing `link:` produces the link
directive whose target is the token with every occurrence of the substring
`link:` removed (for a token of the form `link:X` with a single occurrence this
is exactly the text after `link:`), and no palette lookup is performed — the
palette is arbitrary and absent from the result. -/
theorem C7_link_amended (hl_group fg : String) (palette : List (String × HslColor))
    (hne : fg.data ≠ []) (hsp : ' ' ∉ fg.data) (hlink : containsLink fg.data = true) :
    parse_highlight hl_group fg palette =
      .ok ("\n    hl(0, \"" ++ hl_group ++ "\", \x7b link = \"" ++
        String.mk (removeLink fg.data) ++ "\" \x7d)") := by
  unfold parse_highlight
  rw [tokens_single fg.data hne hsp]
  simp [hlink]

/-- C7 counterexample: for the single token `xlink:y` the claim predicts link
target `y` (the literal text after `link:`), but the code removes the substring
`link:` anywhere and produces target `xy`. -/
theorem C7_link_counterexample :
    parse_highlight "Group" "xlink:y" [] =
      .ok ("\n    hl(0, \"Group\", \x7b link = \"xy\" \x7d)") ∧
    parse_highlight "Group" "xlink:y" [] ≠
      .ok ("\n    hl(0, \"Group\", \x7b link = \"y\" \x7d)") :=
  ⟨by with_unfolding_all rfl, by decide⟩

/-- C7 witness: `link:Comment` compiles to a link directive targeting `Comment`
whatever the palette contains. -/
theorem C7_link_witness :
    parse_highlight "Text" "link:Comment" [("Other", ⟨0, 0, 0⟩)] =
      .ok ("\n    hl(0, \"Text\", \x7b link = \"Comment\" \x7d)") :=
  (C7_link_amended "Text" "link:Comment" [("Other", ⟨0, 0, 0⟩)]
    (by decide) (by decide) (by decide)).trans (by decide)

/-! ### C9: the wildcard panic arm of parse_palette_entry -/

/-- C9 (code bug): for the input `hſl(0, 0, 0)` the color-expression regex
matches, because `(?i)` matches by Unicode simple case folding and `ſ` (U+017F)
folds to `s`; but `str::to_lowercase` leaves the already-lowercase `ſ`
unchanged, so the lowercased capture `hſl` matches no arm and the wildcard
`panic!("Unhandled color capture group option")` arm — modelled as `none` —
executes. -/
theorem C9_panic_reachable :
    parse_palette_entry "hſl(0, 0, 0)" [] none = none := by
  with_unfolding_all rfl

/-! ### C8: argument-count mismatches -/

/-- Spec-side arity table: 3 for hsl, 3 for adjust, 2 for lighten, 2 for
darken, 3 for mix. -/
def expectedArity (s : String) : Option ℕ :=
  if s = "hsl" then some 3
  else if s = "adjust" then some 3
  else if s = "lighten" then some 2
  else if s = "darken" then some 2
  else if s = "mix" then some 3
  else none

lemma findSome?_mem {α β : Type} (f : α → Option β) (l : List α) (b : β)
    (h : l.findSome? f = some b) : ∃ a ∈ l, f a = some b := by
  induction l with
  | nil => simp [List.findSome?] at h
  | cons x xs ih =>
    rw [List.findSome?_cons] at h
    cases hx : f x with
    | some v =>
      rw [hx] at h
      simp only [Option.some.injEq] at h
      exact ⟨x, List.mem_cons_self x xs, by rw [hx, h]⟩
    | none =>
      rw [hx] at h
      obtain ⟨a, ha, hfa⟩ := ih h
      exact ⟨a, List.mem_cons_of_mem _ ha, hfa⟩

lemma tryMatchFunc_inv (name l c1 c2 : List Char)
    (h : tryMatchFunc name l = some (c1, c2)) :
    c1 = l.take name.length ∧ c1.map regexCaseFold = name := by
  unfold tryMatchFunc at h
  by_cases hp : (l.take name.length).map regexCaseFold = name
  · rw [if_pos hp] at h
    cases hs : stripParens (l.drop name.length) with
    | none => rw [hs] at h; exact absurd h (by simp)
    | some mid =>
      rw [hs] at h
      by_cases hnl : mid.contains '\n'
      · simp [hnl] at h
        exact absurd h.1 (not_not_intro (by simpa using hnl))
      · simp [hnl] at h
        obtain ⟨-, h1, -⟩ := h
        exact ⟨h1.symm, h1 ▸ hp⟩
  · rw [if_neg hp] at h; exact absurd h (by simp)

lemma matchColorExpr_head_ne_hash (l c1 c2 : List Char)
    (h : matchColorExpr l = some (c1, c2)) : l.head? ≠ some '#' := by
  unfold matchColorExpr at h
  obtain ⟨nm, hnm, htry⟩ := findSome?_mem _ _ _ h
  obtain ⟨hc1, hfold⟩ := tryMatchFunc_inv nm l c1 c2 htry
  have hnm2 : nm ≠ [] ∧ nm.head? ≠ some '#' := by
    simp only [colorFuncNames, List.mem_cons, List.not_mem_nil, or_false] at hnm
    rcases hnm with rfl | rfl | rfl | rfl | rfl <;> exact ⟨by decide, by decide⟩
  intro hh
  obtain ⟨t, rfl⟩ : ∃ t, l = '#' :: t := by
    cases l with
    | nil => simp at hh
    | cons x t =>
      simp only [List.head?_cons, Option.some.injEq] at hh
      exact ⟨t, by rw [hh]⟩
  obtain ⟨k, hk⟩ : ∃ k, nm.length = k + 1 := by
    cases hcase : nm with
    | nil => exact absurd hcase hnm2.1
    | cons a as => exact ⟨as.length, by simp⟩
  rw [hk, List.take_succ_cons] at hc1
  subst hc1
  rw [List.map_cons] at hfold
  have hh2 : nm.head? = some (regexCaseFold '#') := by rw [← hfold]; rfl
  rw [show regexCaseFold '#' = '#' from by decide] at hh2
  exact hnm2.2 hh2

/-- C8 amended: when the color-expression regex matches with a recognized
function name and the comma-separated argument count differs from the expected
arity (3 for hsl, 3 for adjust, 2 for lighten, 2 for darken, 3 for mix),
parsing fails with an `InvalidColorExpression` condition naming the captured
argument text (the text inside the parentheses), not the whole original
expression string. -/
theorem C8_arity_mismatch (value : String) (c1 c2 : List Char) (k : ℕ)
    (palette : List (String × ColorV)) (hues : Option (List (String × ℚ)))
    (hmatch : matchColorExpr value.data = some (c1, c2))
    (harity : expectedArity (String.mk (c1.map rustToLowerChar)) = some k)
    (hcount : (splitOn ',' c2).length ≠ k) :
    parse_palette_entry value palette hues =
      some (.error (.theme (.invalidColor (String.mk c2)))) := by
  have hhash := matchColorExpr_head_ne_hash _ _ _ hmatch
  have hsplit : ∀ n, (splitOn ',' c2).length ≠ n →
      split_input c2 n = .error (.theme (.invalidColor (String.mk c2))) := by
    intro n hn
    unfold split_input
    rw [if_pos (by rw [List.length_map]; exact hn)]
  unfold parse_palette_entry
  rw [if_neg hhash, hmatch]
  split
  · rename_i cap1 cap2 heq
    obtain ⟨rfl, rfl⟩ : c1 = cap1 ∧ c2 = cap2 := by
      have := Option.some.inj heq
      exact ⟨congrArg Prod.fst this, congrArg Prod.snd this⟩
    by_cases h1 : String.mk (c1.map rustToLowerChar) = "hsl"
    · rw [if_pos h1]
      have hk : k = 3 := by
        rw [h1, show expectedArity "hsl" = some 3 from rfl] at harity
        exact (Option.some.inj harity).symm
      rw [hsplit 3 (hk ▸ hcount)]
      rfl
    · rw [if_neg h1]
      by_cases h2 : String.mk (c1.map rustToLowerChar) = "adjust"
      · rw [if_pos h2]
        have hk : k = 3 := by
          rw [h2, show expectedArity "adjust" = some 3 from rfl] at harity
          exact (Option.some.inj harity).symm
        rw [hsplit 3 (hk ▸ hcount)]
        rfl
      · rw [if_neg h2]
        by_cases h3 : String.mk (c1.map rustToLowerChar) = "lighten"
        · rw [if_pos h3]
          have hk : k = 2 := by
            rw [h3, show expectedArity "lighten" = some 2 from rfl] at harity
            exact (Option.some.inj harity).symm
          rw [hsplit 2 (hk ▸ hcount)]
          rfl
        · rw [if_neg h3]
          by_cases h4 : String.mk (c1.map rustToLowerChar) = "darken"
          · rw [if_pos h4]
            have hk : k = 2 := by
              rw [h4, show expectedArity "darken" = some 2 from rfl] at harity
              exact (Option.some.inj harity).symm
            rw [hsplit 2 (hk ▸ hcount)]
            rfl
          · rw [if_neg h4]
            by_cases h5 : String.mk (c1.map rustToLowerChar) = "mix"
            · rw [if_pos h5]
              have hk : k = 3 := by
                rw [h5, show expectedArity "mix" = some 3 from rfl] at harity
                exact (Option.some.inj harity).symm
              rw [hsplit 3 (hk ▸ hcount)]
              rfl
            · rw [if_neg h5]
              have hnone : expectedArity (String.mk (c1.map rustToLowerChar)) = none := by
                unfold expectedArity
                rw [if_neg h1, if_neg h2, if_neg h3, if_neg h4, if_neg h5]
              rw [hnone] at harity
              exact absurd harity (by simp)
  · rename_i heq
    exact absurd heq (by simp)


/-- C8 counterexample: for `hsl(1,2)` the error payload is the argument text
`1,2`; the claim says it is the original expression string `hsl(1,2)`, which
differs. -/
theorem C8_counterexample :
    parse_palette_entry "hsl(1,2)" [] none =
      some (.error (.theme (.invalidColor "1,2"))) ∧
    ThemeError.invalidColor "1,2" ≠ ThemeError.invalidColor "hsl(1,2)" :=
  ⟨by with_unfolding_all rfl, by decide⟩

/-- C8 witness: `mix(a,b)` has 2 arguments instead of 3 and fails with the
argument text `a,b`. -/
theorem C8_arity_witness :
    parse_palette_entry "mix(a,b)" [] none =
      some (.error (.theme (.invalidColor "a,b"))) :=
  C8_arity_mismatch "mix(a,b)" "mix".data "a,b".data 3 [] none
    (by decide) (by decide) (by decide)

/-! ### C5 / C6: hexadecimal parsing -/

/-- Spec-side shape predicate: the 7-character form `#` followed by 6
hexadecimal digits (letters case-insensitive). -/
def specValidHex (s : String) : Bool :=
  s.length == 7 && s.data.head? == some '#' && (s.data.drop 1).all isAsciiHexDigit

lemma charLe (a b : Char) : a ≤ b ↔ a.toNat ≤ b.toNat := Char.le_def

lemma char0 : ('0' : Char).toNat = 48 := rfl
lemma char9 : ('9' : Char).toNat = 57 := rfl
lemma chara : ('a' : Char).toNat = 97 := rfl
lemma charf : ('f' : Char).toNat = 102 := rfl
lemma charA : ('A' : Char).toNat = 65 := rfl
lemma charF : ('F' : Char).toNat = 70 := rfl

lemma ascii_hex_class (c : Char) (h : isAsciiHexDigit c = true) :
    isHexClassChar c = true := by
  unfold isAsciiHexDigit at h
  unfold isHexClassChar isRegexNd
  simp only [Bool.or_eq_true, Bool.and_eq_true, decide_eq_true_eq] at h ⊢
  tauto

lemma hexCharVal_lt (c : Char) (h : isAsciiHexDigit c = true) : hexCharVal c < 16 := by
  unfold isAsciiHexDigit at h
  simp only [Bool.or_eq_true, Bool.and_eq_true, decide_eq_true_eq, charLe,
    char0, char9, chara, charf, charA, charF] at h
  unfold hexCharVal
  split_ifs with h1 h2
  · rw [charLe, charLe, char0, char9] at h1
    omega
  · rw [charLe, charLe, chara, charf] at h2
    omega
  · rw [charLe, charLe, char0, char9] at h1
    rw [charLe, charLe, chara, charf] at h2
    omega

lemma hexDigitChar_toLower (c : Char) (h : isAsciiHexDigit c = true) :
    hexDigitChar (hexCharVal c) = c.toLower := by
  unfold isAsciiHexDigit at h
  simp only [Bool.or_eq_true, Bool.and_eq_true, decide_eq_true_eq, charLe,
    char0, char9, chara, charf, charA, charF] at h
  unfold hexCharVal hexDigitChar Char.toLower
  rcases h with (⟨h1, h2⟩ | ⟨h1, h2⟩) | ⟨h1, h2⟩
  · rw [if_pos (show ('0' ≤ c ∧ c ≤ '9') by
      rw [charLe, charLe, char0, char9]; exact ⟨h1, h2⟩)]
    rw [if_pos (by omega), if_neg (by omega)]
    rw [show 48 + (c.toNat - 48) = c.toNat by omega, Char.ofNat_toNat]
  · have hc1 : ¬('0' ≤ c ∧ c ≤ '9') := by rw [charLe, charLe, char0, char9]; omega
    rw [if_neg hc1]
    rw [if_pos (show ('a' ≤ c ∧ c ≤ 'f') by
      rw [charLe, charLe, chara, charf]; exact ⟨h1, h2⟩)]
    rw [if_neg (by omega), if_neg (by omega)]
    rw [show 87 + (c.toNat - 87) = c.toNat by omega, Char.ofNat_toNat]
  · have hc1 : ¬('0' ≤ c ∧ c ≤ '9') := by rw [charLe, charLe, char0, char9]; omega
    have hc2 : ¬('a' ≤ c ∧ c ≤ 'f') := by rw [charLe, charLe, chara, charf]; omega
    rw [if_neg hc1, if_neg hc2]
    rw [if_neg (by omega), if_pos (by omega)]
    congr 1
    omega

lemma list_all2 (f : Char → Bool) (a b : Char) (ha : f a = true) (hb : f b = true) :
    [a, b].all f = true := by simp [ha, hb]

lemma extract_pair (a b : Char) (ha : isAsciiHexDigit a = true) (hb : isAsciiHexDigit b = true) :
    extract [a, b] = .ok ⟨hexCharVal a * 16 + hexCharVal b, by
      have h1 := hexCharVal_lt a ha
      have h2 := hexCharVal_lt b hb
      omega⟩ := by
  unfold extract
  rw [if_pos (list_all2 _ a b ha hb)]
  have h1 := hexCharVal_lt a ha
  have h2 := hexCharVal_lt b hb
  congr 1
  apply Fin.ext
  show (List.foldl (fun acc c => acc * 16 + hexCharVal c) 0 [a, b]) % 256 =
    hexCharVal a * 16 + hexCharVal b
  simp only [List.foldl_cons, List.foldl_nil]
  omega


lemma pair_div (a b : ℕ) (hb : b < 16) : (a * 16 + b) / 16 = a := by omega
lemma pair_mod (a b : ℕ) (hb : b < 16) : (a * 16 + b) % 16 = b := by omega

/-- C6: for every valid 7-character hex string (`#` plus 6 hex digits),
`parse_from_hex` succeeds and rendering the result back to hex yields the
input lowercased. -/
theorem C6_parse_hex_left_inverse (s : String) (h : specValidHex s = true) :
    ∃ c, RgbColor.parse_from_hex s = .ok c ∧ c.hex = String.mk (s.data.map Char.toLower) := by
  obtain ⟨l⟩ := s
  unfold specValidHex at h
  simp only [Bool.and_eq_true, beq_iff_eq] at h
  obtain ⟨⟨hlen, hhead⟩, hall⟩ := h
  have hdlen : l.length = 7 := hlen
  rcases l with _ | ⟨x0, l⟩
  · simp at hdlen
  rcases l with _ | ⟨x1, l⟩
  · simp at hdlen
  rcases l with _ | ⟨x2, l⟩
  · simp at hdlen
  rcases l with _ | ⟨x3, l⟩
  · simp at hdlen
  rcases l with _ | ⟨x4, l⟩
  · simp at hdlen
  rcases l with _ | ⟨x5, l⟩
  · simp at hdlen
  rcases l with _ | ⟨x6, l⟩
  · simp at hdlen
  rcases l with _ | ⟨x7, l⟩
  swap
  · simp at hdlen
  have hx0 : x0 = '#' := by simpa using hhead
  subst hx0
  simp only [List.drop, List.all_cons, List.all_nil, Bool.and_eq_true, and_true] at hall
  obtain ⟨h1, h2, h3, h4, h5, h6⟩ := hall
  have hparse : RgbColor.parse_from_hex ⟨['#', x1, x2, x3, x4, x5, x6]⟩ =
      .ok ⟨⟨hexCharVal x1 * 16 + hexCharVal x2, by
              have := hexCharVal_lt x1 h1; have := hexCharVal_lt x2 h2; omega⟩,
           ⟨hexCharVal x3 * 16 + hexCharVal x4, by
              have := hexCharVal_lt x3 h3; have := hexCharVal_lt x4 h4; omega⟩,
           ⟨hexCharVal x5 * 16 + hexCharVal x6, by
              have := hexCharVal_lt x5 h5; have := hexCharVal_lt x6 h6; omega⟩⟩ := by
    have hcond : (isHexClassChar x1 && isHexClassChar x2 && isHexClassChar x3 &&
        isHexClassChar x4 && isHexClassChar x5 && isHexClassChar x6) = true := by
      simp [ascii_hex_class x1 h1, ascii_hex_class x2 h2, ascii_hex_class x3 h3,
        ascii_hex_class x4 h4, ascii_hex_class x5 h5, ascii_hex_class x6 h6]
    unfold RgbColor.parse_from_hex
    simp only [hcond, if_true]
    rw [extract_pair x1 x2 h1 h2, extract_pair x3 x4 h3 h4, extract_pair x5 x6 h5 h6]
    rfl
  refine ⟨_, hparse, ?_⟩
  unfold RgbColor.hex byteToHex
  simp only [List.map_cons, List.map_nil]
  congr 1
  rw [pair_div _ _ (hexCharVal_lt x2 h2), pair_mod _ _ (hexCharVal_lt x2 h2),
      pair_div _ _ (hexCharVal_lt x4 h4), pair_mod _ _ (hexCharVal_lt x4 h4),
      pair_div _ _ (hexCharVal_lt x6 h6), pair_mod _ _ (hexCharVal_lt x6 h6),
      hexDigitChar_toLower x1 h1, hexDigitChar_toLower x2 h2, hexDigitChar_toLower x3 h3,
      hexDigitChar_toLower x4 h4, hexDigitChar_toLower x5 h5, hexDigitChar_toLower x6 h6,
      show Char.toLower '#' = '#' from by decide]
  rfl

/-- C6 witness at a mixed-case input. -/
theorem C6_parse_hex_witness :
    ∃ c, RgbColor.parse_from_hex "#A1b2C3" = .ok c ∧
      c.hex = String.mk ("#A1b2C3".data.map Char.toLower) :=
  C6_parse_hex_left_inverse "#A1b2C3" (by decide)

/-- C5 (code bug): the 7-character input `#٣٣٣٣٣٣` — six Arabic-Indic digits,
members of `\p{Nd}` and therefore matched by the regex class `[a-fA-F\d]` —
is not of the hexadecimal shape, yet `parse_from_hex` fails with an
integer-parse error propagated through `anyhow`, not with the
`InvalidHexFormat` condition the claim requires for every non-hex input. -/
theorem C5_unicode_digit_error :
    RgbColor.parse_from_hex "#٣٣٣٣٣٣" = .error (.parseInt "٣٣") ∧
    ∀ s, Err.parseInt "٣٣" ≠ Err.rgb (.format s) :=
  ⟨by with_unfolding_all rfl, fun s h => Err.noConfusion h⟩

/-! ### C1: the RGB → HSL → RGB round trip is exact

The hue-fold function evaluated at the three channel offsets reconstructs the
original normalized channels exactly in rational arithmetic; scaling by 255 and
rounding then returns the original bytes. -/

lemma hueToRgb_sector1 (p q t : ℚ) (h0 : 0 ≤ t) (h1 : t < 1/6) :
    hueToRgb p q t = p + (q - p) * 6 * t := by
  simp only [hueToRgb]
  rw [if_neg (not_lt.mpr h0), if_neg (not_lt.mpr (by linarith : t ≤ 1)), if_pos h1]

lemma hueToRgb_sector2 (p q t : ℚ) (h0 : 1/6 ≤ t) (h1 : t < 1/2) :
    hueToRgb p q t = q := by
  simp only [hueToRgb]
  rw [if_neg (not_lt.mpr (by linarith : (0:ℚ) ≤ t)),
    if_neg (not_lt.mpr (by linarith : t ≤ 1)), if_neg (not_lt.mpr h0), if_pos h1]

lemma hueToRgb_sector3 (p q t : ℚ) (h0 : 1/2 ≤ t) (h1 : t < 2/3) :
    hueToRgb p q t = p + (q - p) * (2/3 - t) * 6 := by
  simp only [hueToRgb]
  rw [if_neg (not_lt.mpr (by linarith : (0:ℚ) ≤ t)),
    if_neg (not_lt.mpr (by linarith : t ≤ 1)),
    if_neg (not_lt.mpr (by linarith : 1/6 ≤ t)), if_neg (not_lt.mpr h0), if_pos h1]

lemma hueToRgb_sector4 (p q t : ℚ) (h0 : 2/3 ≤ t) (h1 : t ≤ 1) :
    hueToRgb p q t = p := by
  simp only [hueToRgb]
  rw [if_neg (not_lt.mpr (by linarith : (0:ℚ) ≤ t)), if_neg (not_lt.mpr h1),
    if_neg (not_lt.mpr (by linarith : 1/6 ≤ t)),
    if_neg (not_lt.mpr (by linarith : 1/2 ≤ t)), if_neg (not_lt.mpr h0)]

lemma hueToRgb_wrap_neg (p q t : ℚ) (h : t < 0) (h' : -1 ≤ t) :
    hueToRgb p q t = hueToRgb p q (t + 1) := by
  simp only [hueToRgb]
  rw [if_pos h, if_neg (not_lt.mpr (by linarith : (0:ℚ) ≤ t + 1)),
    if_neg (not_lt.mpr (by linarith : t + 1 ≤ 1))]

lemma hueToRgb_wrap_pos (p q t : ℚ) (h : 1 < t) (h' : t ≤ 2) :
    hueToRgb p q t = hueToRgb p q (t - 1) := by
  simp only [hueToRgb]
  rw [if_neg (not_lt.mpr (by linarith : (0:ℚ) ≤ t)),
    if_neg (not_lt.mpr (by linarith : (0:ℚ) ≤ t - 1)), if_pos h,
    if_neg (not_lt.mpr (by linarith : t - 1 ≤ 1))]

/-- In the chromatic branch, the recomputed `q` equals the channel maximum,
whichever saturation formula was chosen. -/
lemma q_formula (mx mn : ℚ) (h0 : 0 ≤ mn) (hlt : mn < mx) (h1 : mx ≤ 1) :
    (if (mx + mn) / 2 < 1/2
     then ((mx + mn) / 2) * (1 + (if (mx + mn) / 2 > 1/2
            then (mx - mn) / (2 - mx - mn) else (mx - mn) / (mx + mn)))
     else (mx + mn) / 2 + (if (mx + mn) / 2 > 1/2
            then (mx - mn) / (2 - mx - mn) else (mx - mn) / (mx + mn))
          - ((mx + mn) / 2) * (if (mx + mn) / 2 > 1/2
            then (mx - mn) / (2 - mx - mn) else (mx - mn) / (mx + mn))) = mx := by
  have hsum : 0 < mx + mn := by linarith
  have hsum2 : mx + mn < 2 := by linarith
  by_cases hl : (mx + mn) / 2 < 1/2
  · rw [if_pos hl, if_neg (by linarith)]
    field_simp
    ring
  · rw [if_neg hl]
    by_cases hg : (mx + mn) / 2 > 1/2
    · rw [if_pos hg]
      have h2s : (0:ℚ) < 2 - mx - mn := by linarith
      field_simp
      ring
    · rw [if_neg hg]
      have hone : mx + mn = 1 := by linarith
      rw [hone]
      have : mx - mn = 2 * mx - 1 := by linarith
      rw [this]
      norm_num
      linarith

/-- The computed saturation is positive in the chromatic branch. -/
lemma s_pos (mx mn : ℚ) (h0 : 0 ≤ mn) (hlt : mn < mx) (h1 : mx ≤ 1) :
    0 < (if (mx + mn) / 2 > 1/2
         then (mx - mn) / (2 - mx - mn) else (mx - mn) / (mx + mn)) := by
  have hd : 0 < mx - mn := by linarith
  by_cases hg : (mx + mn) / 2 > 1/2
  · rw [if_pos hg]
    exact div_pos hd (by linarith)
  · rw [if_neg hg]
    exact div_pos hd (by linarith)

lemma hue_caseA1 (x y z : ℚ) (hzy : z ≤ y) (hyx : y ≤ x) (hzx : z < x) :
    hueToRgb z x ((y - z) / (x - z) / 6 + 1/3) = x ∧
    hueToRgb z x ((y - z) / (x - z) / 6) = y ∧
    hueToRgb z x ((y - z) / (x - z) / 6 - 1/3) = z := by
  have hd : (0:ℚ) < x - z := by linarith
  have hf0 : 0 ≤ (y - z) / (x - z) := div_nonneg (by linarith) hd.le
  have hf1 : (y - z) / (x - z) ≤ 1 := (div_le_one hd).mpr (by linarith)
  refine ⟨?_, ?_, ?_⟩
  · by_cases hhalf : (y - z) / (x - z) / 6 + 1/3 < 1/2
    · rw [hueToRgb_sector2 _ _ _ (by linarith) hhalf]
    · have hfe : (y - z) / (x - z) = 1 := by linarith
      rw [hueToRgb_sector3 _ _ _ (by linarith) (by rw [hfe]; norm_num), hfe]
      ring
  · by_cases hs : (y - z) / (x - z) / 6 < 1/6
    · rw [hueToRgb_sector1 _ _ _ (by linarith) hs]
      field_simp
    · have hfe : (y - z) / (x - z) = 1 := by linarith
      have hyx2 : y = x := by
        have := (div_eq_one_iff_eq hd.ne').mp hfe
        linarith
      rw [hueToRgb_sector2 _ _ _ (by linarith) (by rw [hfe]; norm_num)]
      exact hyx2.symm
  · rw [hueToRgb_wrap_neg _ _ _ (by linarith) (by linarith),
      show (y - z) / (x - z) / 6 - 1/3 + 1 = (y - z) / (x - z) / 6 + 2/3 by ring,
      hueToRgb_sector4 _ _ _ (by linarith) (by linarith)]

lemma hue_caseA2 (x y z : ℚ) (hyz : y < z) (hzx : z ≤ x) :
    hueToRgb y x (((y - z) / (x - y) + 6) / 6 + 1/3) = x ∧
    hueToRgb y x (((y - z) / (x - y) + 6) / 6) = y ∧
    hueToRgb y x (((y - z) / (x - y) + 6) / 6 - 1/3) = z := by
  have hyx : y < x := lt_of_lt_of_le hyz hzx
  have hd : (0:ℚ) < x - y := by linarith
  have hneg : (y - z) / (x - y) < 0 := div_neg_of_neg_of_pos (by linarith) hd
  have hge : -1 ≤ (y - z) / (x - y) := by
    rw [neg_le, ← neg_div]
    exact (div_le_one hd).mpr (by linarith)
  refine ⟨?_, ?_, ?_⟩
  · rw [hueToRgb_wrap_pos _ _ _ (by linarith) (by linarith),
      show ((y - z) / (x - y) + 6) / 6 + 1/3 - 1 = (y - z) / (x - y) / 6 + 1/3 by ring,
      hueToRgb_sector2 _ _ _ (by linarith) (by linarith)]
  · rw [show ((y - z) / (x - y) + 6) / 6 = (y - z) / (x - y) / 6 + 1 by ring,
      hueToRgb_sector4 _ _ _ (by linarith) (by linarith)]
  · rw [show ((y - z) / (x - y) + 6) / 6 - 1/3 = (y - z) / (x - y) / 6 + 2/3 by ring,
      hueToRgb_sector3 _ _ _ (by linarith) (by linarith)]
    field_simp
    ring

lemma hue_caseB1 (x y z : ℚ) (hxz : x ≤ z) (hzy : z ≤ y) (hxy : x < y) :
    hueToRgb x y (((z - x) / (y - x) + 2) / 6 + 1/3) = x ∧
    hueToRgb x y (((z - x) / (y - x) + 2) / 6) = y ∧
    hueToRgb x y (((z - x) / (y - x) + 2) / 6 - 1/3) = z := by
  have hd : (0:ℚ) < y - x := by linarith
  have hf0 : 0 ≤ (z - x) / (y - x) := div_nonneg (by linarith) hd.le
  have hf1 : (z - x) / (y - x) ≤ 1 := (div_le_one hd).mpr (by linarith)
  refine ⟨?_, ?_, ?_⟩
  · rw [show ((z - x) / (y - x) + 2) / 6 + 1/3 = (z - x) / (y - x) / 6 + 2/3 by ring,
      hueToRgb_sector4 _ _ _ (by linarith) (by linarith)]
  · by_cases hhalf : ((z - x) / (y - x) + 2) / 6 < 1/2
    · rw [hueToRgb_sector2 _ _ _ (by linarith) hhalf]
    · have hfe : (z - x) / (y - x) = 1 := by linarith
      rw [hueToRgb_sector3 _ _ _ (by linarith) (by rw [hfe]; norm_num), hfe]
      ring
  · by_cases hs : ((z - x) / (y - x) + 2) / 6 - 1/3 < 1/6
    · rw [hueToRgb_sector1 _ _ _ (by linarith) hs]
      field_simp
      ring
    · have hfe : (z - x) / (y - x) = 1 := by linarith
      have hzy2 : z = y := by
        have := (div_eq_one_iff_eq hd.ne').mp hfe
        linarith
      rw [hueToRgb_sector2 _ _ _ (by linarith) (by rw [hfe]; norm_num)]
      exact hzy2.symm

lemma hue_caseB2 (x y z : ℚ) (hzx : z < x) (hxy : x < y) :
    hueToRgb z y (((z - x) / (y - z) + 2) / 6 + 1/3) = x ∧
    hueToRgb z y (((z - x) / (y - z) + 2) / 6) = y ∧
    hueToRgb z y (((z - x) / (y - z) + 2) / 6 - 1/3) = z := by
  have hd : (0:ℚ) < y - z := by linarith
  have hneg : (z - x) / (y - z) < 0 := div_neg_of_neg_of_pos (by linarith) hd
  have hgt : -1 < (z - x) / (y - z) := by
    rw [neg_lt, ← neg_div]
    exact (div_lt_one hd).mpr (by linarith)
  refine ⟨?_, ?_, ?_⟩
  · rw [show ((z - x) / (y - z) + 2) / 6 + 1/3 = (z - x) / (y - z) / 6 + 2/3 by ring,
      hueToRgb_sector3 _ _ _ (by linarith) (by linarith)]
    field_simp
    ring
  · rw [hueToRgb_sector2 _ _ _ (by linarith) (by linarith)]
  · rw [show ((z - x) / (y - z) + 2) / 6 - 1/3 = (z - x) / (y - z) / 6 by ring,
      hueToRgb_wrap_neg _ _ _ (by linarith) (by linarith),
      hueToRgb_sector4 _ _ _ (by linarith) (by linarith)]

lemma hue_caseC1 (x y z : ℚ) (hyx : y ≤ x) (hxz : x < z) :
    hueToRgb y z (((x - y) / (z - y) + 4) / 6 + 1/3) = x ∧
    hueToRgb y z (((x - y) / (z - y) + 4) / 6) = y ∧
    hueToRgb y z (((x - y) / (z - y) + 4) / 6 - 1/3) = z := by
  have hyz : y < z := lt_of_le_of_lt hyx hxz
  have hd : (0:ℚ) < z - y := by linarith
  have hf0 : 0 ≤ (x - y) / (z - y) := div_nonneg (by linarith) hd.le
  have hf1 : (x - y) / (z - y) < 1 := (div_lt_one hd).mpr (by linarith)
  refine ⟨?_, ?_, ?_⟩
  · by_cases hpos : 0 < (x - y) / (z - y)
    · rw [hueToRgb_wrap_pos _ _ _ (by linarith) (by linarith),
        show ((x - y) / (z - y) + 4) / 6 + 1/3 - 1 = (x - y) / (z - y) / 6 by ring,
        hueToRgb_sector1 _ _ _ (by linarith) (by linarith)]
      field_simp
    · have hfe : (x - y) / (z - y) = 0 := le_antisymm (not_lt.mp hpos) hf0
      have hxy2 : x = y := by
        have hnum : x - y = 0 := by
          rcases (div_eq_zero_iff).mp hfe with h | h
          · exact h
          · exact absurd h (sub_ne_zero_of_ne hyz.ne')
        linarith
      rw [hfe, hueToRgb_sector4 _ _ _ (by norm_num) (by norm_num)]
      exact hxy2.symm
  · rw [show ((x - y) / (z - y) + 4) / 6 = (x - y) / (z - y) / 6 + 2/3 by ring,
      hueToRgb_sector4 _ _ _ (by linarith) (by linarith)]
  · rw [show ((x - y) / (z - y) + 4) / 6 - 1/3 = (x - y) / (z - y) / 6 + 1/3 by ring,
      hueToRgb_sector2 _ _ _ (by linarith) (by linarith)]

lemma hue_caseC2 (x y z : ℚ) (hxy : x < y) (hyz : y < z) :
    hueToRgb x z (((x - y) / (z - x) + 4) / 6 + 1/3) = x ∧
    hueToRgb x z (((x - y) / (z - x) + 4) / 6) = y ∧
    hueToRgb x z (((x - y) / (z - x) + 4) / 6 - 1/3) = z := by
  have hd : (0:ℚ) < z - x := by linarith
  have hneg : (x - y) / (z - x) < 0 := div_neg_of_neg_of_pos (by linarith) hd
  have hgt : -1 < (x - y) / (z - x) := by
    rw [neg_lt, ← neg_div]
    exact (div_lt_one hd).mpr (by linarith)
  refine ⟨?_, ?_, ?_⟩
  · rw [show ((x - y) / (z - x) + 4) / 6 + 1/3 = (x - y) / (z - x) / 6 + 1 by ring,
      hueToRgb_sector4 _ _ _ (by linarith) (by linarith)]
  · rw [show ((x - y) / (z - x) + 4) / 6 = (x - y) / (z - x) / 6 + 2/3 by ring,
      hueToRgb_sector3 _ _ _ (by linarith) (by linarith)]
    field_simp
    ring
  · rw [show ((x - y) / (z - x) + 4) / 6 - 1/3 = (x - y) / (z - x) / 6 + 1/3 by ring,
      hueToRgb_sector2 _ _ _ (by linarith) (by linarith)]

/-- The RGB → HSL → RGB round trip is the identity on `RgbColor` in the exact
rational model: the chromatic reconstruction returns each normalized channel
exactly, and rounding after scaling by 255 recovers the original byte. -/
lemma toHsl_toRgb_id (c : RgbColor) : (c.toHslColor).toRgbColor = c := by
  obtain ⟨⟨r, hr⟩, ⟨g, hg⟩, ⟨b, hb⟩⟩ := c
  have hx0 : (0:ℚ) ≤ (r:ℚ)/255 := by positivity
  have hy0 : (0:ℚ) ≤ (g:ℚ)/255 := by positivity
  have hz0 : (0:ℚ) ≤ (b:ℚ)/255 := by positivity
  have hx1 : (r:ℚ)/255 ≤ 1 := by
    rw [div_le_one (by norm_num)]
    exact_mod_cast Nat.lt_succ_iff.mp hr
  have hy1 : (g:ℚ)/255 ≤ 1 := by
    rw [div_le_one (by norm_num)]
    exact_mod_cast Nat.lt_succ_iff.mp hg
  have hz1 : (b:ℚ)/255 ≤ 1 := by
    rw [div_le_one (by norm_num)]
    exact_mod_cast Nat.lt_succ_iff.mp hb
  have hx255 : (r:ℚ)/255 * 255 = (r:ℚ) := by field_simp
  have hy255 : (g:ℚ)/255 * 255 = (g:ℚ) := by field_simp
  have hz255 : (b:ℚ)/255 * 255 = (b:ℚ) := by field_simp
  simp only [RgbColor.toHslColor]
  set M := max (max ((r:ℚ)/255) ((g:ℚ)/255)) ((b:ℚ)/255) with hM
  set N := min (min ((r:ℚ)/255) ((g:ℚ)/255)) ((b:ℚ)/255) with hN
  have hxM : (r:ℚ)/255 ≤ M := le_max_of_le_left (le_max_left _ _)
  have hyM : (g:ℚ)/255 ≤ M := le_max_of_le_left (le_max_right _ _)
  have hzM : (b:ℚ)/255 ≤ M := le_max_right _ _
  have hNx : N ≤ (r:ℚ)/255 := le_trans (min_le_left _ _) (min_le_left _ _)
  have hNy : N ≤ (g:ℚ)/255 := le_trans (min_le_left _ _) (min_le_right _ _)
  have hNz : N ≤ (b:ℚ)/255 := min_le_right _ _
  by_cases heq : M = N
  · rw [if_pos heq]
    have hex : (M + N)/2 = (r:ℚ)/255 := by linarith
    have hey : (M + N)/2 = (g:ℚ)/255 := by linarith
    have hez : (M + N)/2 = (b:ℚ)/255 := by linarith
    simp only [HslColor.toRgbColor]
    rw [if_pos trivial]
    simp only [RgbColor.mk.injEq]
    refine ⟨?_, ?_, ?_⟩
    · rw [hex, hx255]
      exact roundToU8_natCast r hr
    · rw [hey, hy255]
      exact roundToU8_natCast g hg
    · rw [hez, hz255]
      exact roundToU8_natCast b hb
  · rw [if_neg heq]
    have hlt : N < M := lt_of_le_of_ne (le_trans hNx hxM) (fun h => heq h.symm)
    have hN0 : 0 ≤ N := le_min (le_min hx0 hy0) hz0
    have hM1 : M ≤ 1 := max_le (max_le hx1 hy1) hz1
    simp only [HslColor.toRgbColor]
    rw [if_neg (s_pos M N hN0 hlt hM1).ne']
    rw [q_formula M N hN0 hlt hM1]
    rw [show (2:ℚ) * ((M + N)/2) - M = N by ring]
    simp only [RgbColor.mk.injEq]
    by_cases hxm : (r:ℚ)/255 = M
    · by_cases hyz : (g:ℚ)/255 < (b:ℚ)/255
      · rw [if_pos hxm, if_pos hyz]
        have hNy2 : N = (g:ℚ)/255 := by
          rw [hN,
            min_eq_right (show ((g:ℚ)/255) ≤ ((r:ℚ)/255) by rw [hxm]; exact hyM),
            min_eq_left hyz.le]
        rw [← hxm, hNy2]
        obtain ⟨e1, e2, e3⟩ :=
          hue_caseA2 ((r:ℚ)/255) ((g:ℚ)/255) ((b:ℚ)/255) hyz (by rw [hxm]; exact hzM)
        refine ⟨?_, ?_, ?_⟩
        · rw [e1, hx255]
          exact roundToU8_natCast r hr
        · rw [e2, hy255]
          exact roundToU8_natCast g hg
        · rw [e3, hz255]
          exact roundToU8_natCast b hb
      · rw [if_pos hxm, if_neg hyz]
        have hzyle : (b:ℚ)/255 ≤ (g:ℚ)/255 := not_lt.mp hyz
        have hyxle : (g:ℚ)/255 ≤ (r:ℚ)/255 := by rw [hxm]; exact hyM
        have hNz2 : N = (b:ℚ)/255 := by
          rw [hN, min_eq_right
            (le_min (show ((b:ℚ)/255) ≤ ((r:ℚ)/255) by rw [hxm]; exact hzM) hzyle)]
        have hzx : (b:ℚ)/255 < (r:ℚ)/255 := by
          have h2 := hlt
          rw [hNz2, ← hxm] at h2
          exact h2
        rw [← hxm, hNz2, add_zero]
        obtain ⟨e1, e2, e3⟩ :=
          hue_caseA1 ((r:ℚ)/255) ((g:ℚ)/255) ((b:ℚ)/255) hzyle hyxle hzx
        refine ⟨?_, ?_, ?_⟩
        · rw [e1, hx255]
          exact roundToU8_natCast r hr
        · rw [e2, hy255]
          exact roundToU8_natCast g hg
        · rw [e3, hz255]
          exact roundToU8_natCast b hb
    · by_cases hym : (g:ℚ)/255 = M
      · rw [if_neg hxm, if_pos hym]
        have hxyl : (r:ℚ)/255 < (g:ℚ)/255 :=
          lt_of_le_of_ne (by rw [hym]; exact hxM) (fun h => hxm (h.trans hym))
        by_cases hxz : (r:ℚ)/255 ≤ (b:ℚ)/255
        · have hNx2 : N = (r:ℚ)/255 := by
            rw [hN, min_eq_left hxyl.le, min_eq_left hxz]
          rw [← hym, hNx2]
          obtain ⟨e1, e2, e3⟩ :=
            hue_caseB1 ((r:ℚ)/255) ((g:ℚ)/255) ((b:ℚ)/255) hxz (by rw [hym]; exact hzM) hxyl
          refine ⟨?_, ?_, ?_⟩
          · rw [e1, hx255]
            exact roundToU8_natCast r hr
          · rw [e2, hy255]
            exact roundToU8_natCast g hg
          · rw [e3, hz255]
            exact roundToU8_natCast b hb
        · have hzx : (b:ℚ)/255 < (r:ℚ)/255 := not_le.mp hxz
          have hNz2 : N = (b:ℚ)/255 := by
            rw [hN, min_eq_left hxyl.le, min_eq_right hzx.le]
          rw [← hym, hNz2]
          obtain ⟨e1, e2, e3⟩ :=
            hue_caseB2 ((r:ℚ)/255) ((g:ℚ)/255) ((b:ℚ)/255) hzx hxyl
          refine ⟨?_, ?_, ?_⟩
          · rw [e1, hx255]
            exact roundToU8_natCast r hr
          · rw [e2, hy255]
            exact roundToU8_natCast g hg
          · rw [e3, hz255]
            exact roundToU8_natCast b hb
      · by_cases hzm : (b:ℚ)/255 = M
        · rw [if_neg hxm, if_neg hym, if_pos hzm]
          by_cases hyx : (g:ℚ)/255 ≤ (r:ℚ)/255
          · have hxz : (r:ℚ)/255 < (b:ℚ)/255 :=
              lt_of_le_of_ne (by rw [hzm]; exact hxM) (fun h => hxm (h.trans hzm))
            have hyz : (g:ℚ)/255 < (b:ℚ)/255 := lt_of_le_of_lt hyx hxz
            have hNy2 : N = (g:ℚ)/255 := by
              rw [hN, min_eq_right hyx, min_eq_left hyz.le]
            rw [← hzm, hNy2]
            obtain ⟨e1, e2, e3⟩ :=
              hue_caseC1 ((r:ℚ)/255) ((g:ℚ)/255) ((b:ℚ)/255) hyx hxz
            refine ⟨?_, ?_, ?_⟩
            · rw [e1, hx255]
              exact roundToU8_natCast r hr
            · rw [e2, hy255]
              exact roundToU8_natCast g hg
            · rw [e3, hz255]
              exact roundToU8_natCast b hb
          · have hxy : (r:ℚ)/255 < (g:ℚ)/255 := not_le.mp hyx
            have hyz : (g:ℚ)/255 < (b:ℚ)/255 :=
              lt_of_le_of_ne (by rw [hzm]; exact hyM) (fun h => hym (h.trans hzm))
            have hNx2 : N = (r:ℚ)/255 := by
              rw [hN, min_eq_left hxy.le, min_eq_left (le_trans hxy.le hyz.le)]
            rw [← hzm, hNx2]
            obtain ⟨e1, e2, e3⟩ :=
              hue_caseC2 ((r:ℚ)/255) ((g:ℚ)/255) ((b:ℚ)/255) hxy hyz
            refine ⟨?_, ?_, ?_⟩
            · rw [e1, hx255]
              exact roundToU8_natCast r hr
            · rw [e2, hy255]
              exact roundToU8_natCast g hg
            · rw [e3, hz255]
              exact roundToU8_natCast b hb
        · exfalso
          rcases max_choice (max ((r:ℚ)/255) ((g:ℚ)/255)) ((b:ℚ)/255) with h | h
          · rcases max_choice ((r:ℚ)/255) ((g:ℚ)/255) with h2 | h2
            · exact hxm (hM.trans (h.trans h2)).symm
            · exact hym (hM.trans (h.trans h2)).symm
          · exact hzm (hM.trans h).symm


/-- C1: for every `RgbColor` produced by `parse_from_hex`, converting to HSL
and back to RGB yields a color whose rendered hexadecimal string equals the
original color's; the round trip is in fact the identity on `RgbColor`. -/
theorem C1_rgb_hsl_roundtrip (s : String) (c : RgbColor)
    (h : RgbColor.parse_from_hex s = .ok c) :
    (c.toHslColor.toRgbColor).hex = c.hex := by
  rw [toHsl_toRgb_id c]

/-- C1 witness at the concrete parse of `#3a7f2b`. -/
theorem C1_roundtrip_witness :
    ((RgbColor.mk ⟨0x3a, by norm_num⟩ ⟨0x7f, by norm_num⟩
        ⟨0x2b, by norm_num⟩).toHslColor.toRgbColor).hex =
      (RgbColor.mk ⟨0x3a, by norm_num⟩ ⟨0x7f, by norm_num⟩ ⟨0x2b, by norm_num⟩).hex :=
  C1_rgb_hsl_roundtrip "#3a7f2b" _ (by with_unfolding_all rfl)

end Huey
